import Mathlib

/-! Shallow embedding of the redactify detection and redaction pipeline
(`redactify.py` and `app.py`): JSON response values, the AI fuzzy matcher
`AIAddressMatcher`, regex/literal detection with text-based deduplication
(`PDFRedactor.detect_addresses`, `process_pdf_in_memory`), configuration
loading (`PDFRedactor.__init__` / `load_config`), redaction geometry
(`redact_pdf`, `redact_to_image`), the web batch loop (`upload_files`) and
session cleanup (`/cleanup`).  External effects enter as explicit oracle
parameters: the language-model transport, `json.loads`, the regex engine
for arbitrary patterns, and PyMuPDF text search (`page.search_for`). -/

/-- A JSON scalar as it can occur inside a parsed backend response.
Objects are abstracted to their key count: indexing an object with an
integer position raises KeyError in Python, so the keys themselves never
influence the code modelled here.  Numbers are modelled as integers. -/
inductive JAtom where
  | str (s : String)
  | int (n : Int)
  | bool (b : Bool)
  | null
  | obj (size : Nat)
  deriving DecidableEq

/-- A JSON value inside a response entry.  Arrays nested below the entry
level keep one level of scalar elements; still deeper values do not
influence any control flow in the source and are not modelled. -/
inductive JVal where
  | atom (a : JAtom)
  | jarr (elems : List JAtom)
  deriving DecidableEq

/-- One element of the top-level JSON array extracted from a backend
response (one `match` in the loop of `find_similar_patterns`). -/
inductive JEntry where
  | earr (elems : List JVal)
  | eatom (a : JAtom)
  deriving DecidableEq

/-- A detected match: the Python dict with keys `text`, `start`, `end`.
Matches coming from the AI response can hold arbitrary JSON values in all
three slots; regex matches hold a string and two integers. -/
structure JMatch where
  text : JVal
  start : JVal
  stop : JVal
  deriving DecidableEq

/-- A raw regex hit: `match.group()`, `match.start()`, `match.end()`. -/
structure ReMatch where
  text : String
  start : Nat
  stop : Nat
  deriving DecidableEq

/-- The dict built for a regex hit in the detection loops. -/
def ReMatch.toJMatch (m : ReMatch) : JMatch :=
  ⟨.atom (.str m.text), .atom (.int m.start), .atom (.int m.stop)⟩

/-- Python `str.find` for a single character: index of the first
occurrence, `none` for Python's `-1`. -/
def strFindChar (s : String) (c : Char) : Option Nat :=
  s.data.findIdx? (· == c)

/-- Python `str.rfind` for a single character: index of the last
occurrence, `none` for Python's `-1`. -/
def strRfindChar (s : String) (c : Char) : Option Nat :=
  (s.data.reverse.findIdx? (· == c)).map (fun i => s.data.length - 1 - i)

/-- Python slice `s[a:b]` for `0 ≤ a ≤ b` (indices clamp to the end). -/
def strSlice (s : String) (a b : Nat) : String :=
  String.mk ((s.data.drop a).take (b - a))

/-- The `ai_api` section of the configuration; every key is optional. -/
structure AIApiCfg where
  enabled : Option Bool := none
  provider : Option String := none
  api_key : Option String := none
  model : Option String := none
  deriving DecidableEq

/-- The process environment: the two API key variables consulted by
`AIAddressMatcher.__init__`. -/
structure Env where
  anthropicKey : Option String := none
  openaiKey : Option String := none
  deriving DecidableEq

/-- Python `a or b` on optional strings: `None` and the empty string are
falsy, and `or` returns its second operand unevaluated otherwise. -/
def pyOrStr (a b : Option String) : Option String :=
  match a with
  | some s => if s = "" then b else some s
  | none => b

/-- Python truthiness of an optional string. -/
def truthyStr : Option String → Bool
  | none => false
  | some s => !decide (s = "")

/-- The key resolution in `AIAddressMatcher.__init__`:
`config.get('api_key') or os.getenv('ANTHROPIC_API_KEY') or
os.getenv('OPENAI_API_KEY')`. -/
def resolveKey (cfg : AIApiCfg) (env : Env) : Option String :=
  pyOrStr cfg.api_key (pyOrStr env.anthropicKey env.openaiKey)

/-- The state of an `AIAddressMatcher` after `__init__`. -/
structure AIAddressMatcher where
  ai_enabled : Bool
  provider : String
  api_key : Option String
  model : String
  deriving DecidableEq

/-- `AIAddressMatcher.__init__`: read the config, resolve the key, and
self-disable (the source logs a warning) when enabled without a usable
key. -/
def AIAddressMatcher.make (cfg : AIApiCfg) (env : Env) : AIAddressMatcher :=
  let enabled := cfg.enabled.getD false
  let key := resolveKey cfg env
  { ai_enabled := if enabled && !truthyStr key then false else enabled
    provider := cfg.provider.getD "anthropic"
    api_key := key
    model := cfg.model.getD "claude-3-haiku-20240307" }

/-- Python `len(match)` for a response entry; `none` models a raised
TypeError (integers, booleans and null have no `len`). -/
def pyLenEntry : JEntry → Option Nat
  | .earr xs => some xs.length
  | .eatom (.str s) => some s.length
  | .eatom (.obj n) => some n
  | .eatom _ => none

/-- Python `match[i]` for a response entry; `none` models a raised
exception (KeyError when the entry is an object).  Indexing a string
yields a one-character string. -/
def pyIndexEntry : JEntry → Nat → Option JVal
  | .earr xs, i => xs[i]?
  | .eatom (.str s), i => (s.data[i]?).map (fun c => JVal.atom (.str (String.mk [c])))
  | .eatom _, _ => none

/-- The entry loop of `find_similar_patterns`: entries of length at least
3 become matches, shorter ones are skipped; `none` models an exception
escaping to the outer handler (which discards everything). -/
def processEntries : List JEntry → Option (List JMatch)
  | [] => some []
  | e :: rest =>
    match pyLenEntry e with
    | none => none
    | some l =>
      if 3 ≤ l then
        match pyIndexEntry e 0, pyIndexEntry e 1, pyIndexEntry e 2 with
        | some t, some s, some en => (processEntries rest).map (fun tail => ⟨t, s, en⟩ :: tail)
        | _, _, _ => none
      else processEntries rest

/-- The bracket-window extraction in `find_similar_patterns`:
`start_idx = result_text.find('[')`, `end_idx = result_text.rfind(']') + 1`
and the slice taken when `start_idx != -1 and end_idx > start_idx`. -/
def parseWindow (resp : String) : Option String :=
  match strFindChar resp '[', strRfindChar resp ']' with
  | some s, some r => if s < r + 1 then some (strSlice resp s (r + 1)) else none
  | _, _ => none

/-- `AIAddressMatcher.find_similar_patterns`.  External effects are oracle
parameters: `transport` is the provider round trip (`none` models a raised
transport error, caught by the outer handler); `jsonLoads` models
`json.loads` on the extracted window (`none` models `JSONDecodeError`; a
successful parse of a string that begins with `[` is always a Python
list).  The page text only feeds the prompt and cannot alter the result
beyond what the oracles return. -/
def AIAddressMatcher.find_similar_patterns (m : AIAddressMatcher)
    (jsonLoads : String → Option (List JEntry)) (transport : Option String)
    (_text : String) (target_patterns : List String) : List JMatch :=
  if !m.ai_enabled || target_patterns.isEmpty then [] else
    match transport with
    | none => []
    | some resp =>
      match parseWindow resp with
      | none => []
      | some w =>
        match jsonLoads w with
        | none => []
        | some entries => (processEntries entries).getD []

/-- One scan step of `re.finditer` specialised to a regex-escaped literal
pattern: collect non-overlapping occurrences left to right; `skip` counts
positions still covered by the previous hit. -/
def scanLit (pat : List Char) : List Char → Nat → Nat → List (Nat × Nat)
  | [], i, skip => if skip = 0 && pat.isEmpty then [(i, i)] else []
  | c :: rest, i, skip =>
    if 0 < skip then scanLit pat rest (i + 1) (skip - 1)
    else if pat.isPrefixOf (c :: rest) then
      (i, i + pat.length) :: scanLit pat rest (i + 1) (pat.length.max 1 - 1)
    else scanLit pat rest (i + 1) 0

/-- `re.finditer(re.escape(pattern), text)`: on an escaped pattern the
regex engine returns exactly the non-overlapping literal occurrences, each
with `group()` equal to the pattern itself. -/
def literFinditer (pat text : String) : List ReMatch :=
  (scanLit pat.data text.data 0 0).map (fun p => ⟨pat, p.1, p.2⟩)

/-- The duplicate check in both detection loops: append the candidate
unless an entry with the same `text` is already present (Python `==` on
the stored text values). -/
def dedupAppend (acc : List JMatch) (nm : JMatch) : List JMatch :=
  if acc.any (fun a => decide (a.text = nm.text)) then acc else acc ++ [nm]

/-- Folding a stream of candidate matches through `dedupAppend`. -/
def dedupFold (acc : List JMatch) (ms : List JMatch) : List JMatch :=
  ms.foldl dedupAppend acc

/-- The regex loop shared by `PDFRedactor.detect_addresses` and
`process_pdf_in_memory`: every pattern's raw hits are appended through the
duplicate-text check, starting from the fuzzy detector's entries.  The
regex engine enters as the oracle `fd`. -/
def regexPass (fd : String → String → List ReMatch) (patterns : List String)
    (text : String) (init : List JMatch) : List JMatch :=
  patterns.foldl (fun acc pat => (fd pat text).foldl (fun a m => dedupAppend a m.toJMatch) acc) init

/-- The fields of `PDFRedactor` set up in `__init__`/`load_config`. -/
structure PDFRedactor where
  address_patterns : List String
  input_dir : Option String
  output_dir : Option String
  target_patterns : List String
  ai_matcher : Option AIAddressMatcher
  deriving DecidableEq

/-- The fuzzy branch of `PDFRedactor.detect_addresses`: it runs only when
an `ai_matcher` exists, is enabled, and `target_patterns` is nonempty. -/
def fuzzyPartCLI (r : PDFRedactor) (jsonLoads : String → Option (List JEntry))
    (transport : Option String) (text : String) : List JMatch :=
  match r.ai_matcher with
  | some m =>
    if m.ai_enabled && !r.target_patterns.isEmpty then
      m.find_similar_patterns jsonLoads transport text r.target_patterns
    else []
  | none => []

/-- `PDFRedactor.detect_addresses`: fuzzy matches are inserted first, then
the legacy pattern pass appends regex hits under the duplicate-text
check. -/
def PDFRedactor.detect_addresses (r : PDFRedactor)
    (fd : String → String → List ReMatch) (jsonLoads : String → Option (List JEntry))
    (transport : Option String) (text : String) : List JMatch :=
  regexPass fd r.address_patterns text (fuzzyPartCLI r jsonLoads transport text)

/-- The fuzzy branch of the per-page detection in `process_pdf_in_memory`
(`if ai_matcher and ai_matcher.ai_enabled`); it is fed the resolved target
patterns themselves. -/
def fuzzyPartMem (om : Option AIAddressMatcher) (jsonLoads : String → Option (List JEntry))
    (transport : Option String) (patterns : List String) (text : String) : List JMatch :=
  match om with
  | some m => if m.ai_enabled then m.find_similar_patterns jsonLoads transport text patterns else []
  | none => []

/-- The per-page detection of `process_pdf_in_memory`: the same resolved
`target_patterns` feed the fuzzy branch and, regex-escaped, the literal
regex loop. -/
def process_detect (om : Option AIAddressMatcher) (jsonLoads : String → Option (List JEntry))
    (transport : Option String) (patterns : List String) (text : String) : List JMatch :=
  regexPass literFinditer patterns text (fuzzyPartMem om jsonLoads transport patterns text)

/-- Python `re.escape` (3.7 and later): a backslash before every character
that is special in a pattern. -/
def reEscapeChar (c : Char) : List Char :=
  if c ∈ ['(', ')', '[', ']', '\x7b', '\x7d', '?', '*', '+', '-', '|', '^', '$',
          '\\', '.', '&', '~', '#', ' ', '\t', '\n', '\r', '\x0b', '\x0c'] then
    ['\\', c]
  else [c]

/-- Python `re.escape` over a whole string. -/
def reEscape (s : String) : String :=
  String.mk (s.data.foldr (fun c acc => reEscapeChar c ++ acc) [])

/-- The legacy structured fields of a configuration payload. -/
structure LegacyCfg where
  postal_codes : Option (List String) := none
  prefectures : Option (List String) := none
  cities : Option (List String) := none
  addresses : Option (List String) := none
  custom_patterns : Option (List String) := none
  deriving DecidableEq

/-- The `folders` section of a configuration payload. -/
structure Folders where
  input_dir : Option String := none
  output_dir : Option String := none
  deriving DecidableEq

/-- A parsed configuration file.  `rootLegacy` holds the legacy keys when
they sit at the top level: `config.get('legacy_patterns', config)` falls
back to the root when no `legacy_patterns` key exists. -/
structure Config where
  folders : Option Folders := none
  ai_api : Option AIApiCfg := none
  target_patterns : Option (List String) := none
  rootLegacy : LegacyCfg := {}
  legacy_patterns : Option LegacyCfg := none

/-- The legacy pattern list built in `load_config`: regex-escaped
structured fields in source order, then the raw custom patterns. -/
def buildLegacyList (lc : LegacyCfg) : List String :=
  ((lc.postal_codes.getD []).map reEscape) ++ ((lc.prefectures.getD []).map reEscape)
    ++ ((lc.cities.getD []).map reEscape) ++ ((lc.addresses.getD []).map reEscape)
    ++ lc.custom_patterns.getD []

/-- `PDFRedactor.load_config` on a successfully parsed payload: folder
hints, the AI matcher, the target patterns, then the legacy pattern list,
which replaces the default only when nonempty (`if patterns:`). -/
def PDFRedactor.load_config (r0 : PDFRedactor) (cfg : Config) (env : Env) : PDFRedactor :=
  let r1 := match cfg.folders with
    | some f => { r0 with input_dir := f.input_dir, output_dir := f.output_dir }
    | none => r0
  let r2 := match cfg.ai_api with
    | some a => { r1 with ai_matcher := some (AIAddressMatcher.make a env) }
    | none => r1
  let r3 := match cfg.target_patterns with
    | some tp => { r2 with target_patterns := tp }
    | none => r2
  let pats := buildLegacyList (cfg.legacy_patterns.getD cfg.rootLegacy)
  if pats.isEmpty then r3 else { r3 with address_patterns := pats }

/-- `PDFRedactor.__init__`.  `cfg = none` covers both a missing
configuration file and an unparseable one (whose exception `load_config`
catches after a warning, leaving the defaults in place).  The
`ValueError` raised when neither target nor legacy patterns resolved is
modelled as `Except.error`; no document enters this stage at all. -/
def PDFRedactor.init (cfg : Option Config) (env : Env) : Except String PDFRedactor :=
  let r0 : PDFRedactor := ⟨[], none, none, [], none⟩
  let r := match cfg with
    | some c => r0.load_config c env
    | none => r0
  if r.target_patterns.isEmpty && r.address_patterns.isEmpty then
    Except.error "target_patterns or legacy_patterns required"
  else Except.ok r

/-- An axis-aligned page rectangle in points (a PyMuPDF `Rect`),
coordinates modelled as rationals. -/
structure PRect where
  x0 : ℚ
  y0 : ℚ
  x1 : ℚ
  y1 : ℚ
  deriving DecidableEq

/-- A pixel-space rectangle as passed to `ImageDraw.rectangle`. -/
structure IRect where
  x0 : ℤ
  y0 : ℤ
  x1 : ℤ
  y1 : ℤ
  deriving DecidableEq

/-- Python `int()` on a rational: truncation toward zero (floor for
nonnegative values, ceiling for negative ones). -/
def pyInt (q : ℚ) : ℤ :=
  if 0 ≤ q then ⌊q⌋ else ⌈q⌉

/-- The redaction loop of `PDFRedactor.redact_pdf` on one page, given the
detected matches and the text-search oracle (`page.search_for`): each
located rectangle is registered inflated by one point on every side, and
the count rises once per rectangle. -/
def redact_pdf_page (addresses : List JMatch) (searchFor : JVal → List PRect) :
    List PRect × Nat :=
  addresses.foldl (fun st addr =>
    (searchFor addr.text).foldl (fun st2 inst =>
      (st2.1 ++ [⟨inst.x0 - 1, inst.y0 - 1, inst.x1 + 1, inst.y1 + 1⟩], st2.2 + 1)) st)
    ([], 0)

/-- The painting loop of `PDFRedactor.redact_to_image` on the first page:
each coordinate is scaled by `dpi / 72`, truncated by `int()`, and the
box inflated by two pixels on every side before being filled. -/
def redact_to_image_page (addresses : List JMatch) (searchFor : JVal → List PRect)
    (dpi : ℚ) : List IRect × Nat :=
  addresses.foldl (fun st addr =>
    (searchFor addr.text).foldl (fun st2 inst =>
      (st2.1 ++ [⟨pyInt (inst.x0 * (dpi / 72)) - 2, pyInt (inst.y0 * (dpi / 72)) - 2,
                  pyInt (inst.x1 * (dpi / 72)) + 2, pyInt (inst.y1 * (dpi / 72)) + 2⟩],
       st2.2 + 1)) st)
    ([], 0)

/-- Modelled from the spec: the raster region the spec's geometry-margin
property claims, `(x*s - 2, y*s - 2, x*s + 2, y*s + 2)` with
`s = DPI/72`, with no integer truncation of the scaled coordinates. -/
def rasterRegionSpec (dpi : ℚ) (r : PRect) : PRect :=
  ⟨r.x0 * (dpi / 72) - 2, r.y0 * (dpi / 72) - 2, r.x1 * (dpi / 72) + 2, r.y1 * (dpi / 72) + 2⟩

/-- Python `str.replace` on character lists (all occurrences; an empty
pattern inserts the replacement at every position). -/
def replaceAllAux (pat rep : List Char) : List Char → List Char
  | [] => if pat.isEmpty then rep else []
  | c :: rest =>
    if pat.isEmpty then rep ++ c :: replaceAllAux pat rep rest
    else if pat.isPrefixOf (c :: rest) then
      rep ++ replaceAllAux pat rep (rest.drop (pat.length - 1))
    else c :: replaceAllAux pat rep rest
termination_by l => l.length
decreasing_by
  all_goals simp [List.length_drop]
  all_goals omega

/-- Python `str.replace`. -/
def replaceAll (s pat rep : String) : String :=
  String.mk (replaceAllAux pat.data rep.data s.data)

/-- One record of the `processed_files` list built by `upload_files`. -/
inductive ProcEntry where
  | ok (original output : String) (count : Nat)
  | err (original msg : String)
  deriving DecidableEq

/-- Whether a record reports success. -/
def ProcEntry.isOk : ProcEntry → Bool
  | .ok _ _ _ => true
  | .err _ _ => false

/-- Whether a file's processing outcome succeeded. -/
def fileOutcomeOk : String × Except String Nat → Bool := fun f =>
  match f.2 with
  | Except.ok _ => true
  | Except.error _ => false

/-- The per-file loop of `upload_files`: each document's processing
outcome (`process_pdf_in_memory` succeeding with a count, or raising)
enters as data.  A success appends a result record and adds its count to
the total; a failure appends an error marker; either way the loop
continues with the next file. -/
def upload_files_loop (files : List (String × Except String Nat)) : List ProcEntry × Nat :=
  files.foldl (fun st f =>
    match f.2 with
    | Except.ok c => (st.1 ++ [ProcEntry.ok f.1 (replaceAll f.1 ".pdf" "_redacted.pdf") c], st.2 + c)
    | Except.error e => (st.1 ++ [ProcEntry.err f.1 e], st.2)) ([], 0)

/-- The HTTP outcome of the `/cleanup` handler. -/
inductive CleanupResult where
  | ok
  | badRequest (msg : String)
  deriving DecidableEq

/-- The `/cleanup` handler: a missing or empty (falsy) session id is
rejected with status 400; otherwise the id is deleted from the in-memory
store when present, and the handler reports success either way. -/
def cleanup {α : Type} (sessionId : Option String) (store : List (String × α)) :
    CleanupResult × List (String × α) :=
  match sessionId with
  | none => (.badRequest "session id required", store)
  | some s =>
    if s = "" then (.badRequest "session id required", store)
    else if store.any (fun p => decide (p.1 = s)) then
      (.ok, store.filter (fun p => !decide (p.1 = s)))
    else (.ok, store)

theorem dedupAppend_of_mem {acc : List JMatch} {nm : JMatch}
    (h : ∃ a ∈ acc, a.text = nm.text) : dedupAppend acc nm = acc := by
  simp only [dedupAppend, List.any_eq_true, decide_eq_true_eq]
  rw [if_pos h]

theorem dedupAppend_of_not_mem {acc : List JMatch} {nm : JMatch}
    (h : ¬ ∃ a ∈ acc, a.text = nm.text) : dedupAppend acc nm = acc ++ [nm] := by
  simp only [dedupAppend, List.any_eq_true, decide_eq_true_eq]
  rw [if_neg h]

/-- Every run of the dedup fold extends its accumulator, and every
appended entry carries a text absent from the accumulator. -/
theorem dedupFold_structure (ms : List JMatch) :
    ∀ acc : List JMatch, ∃ extra, dedupFold acc ms = acc ++ extra ∧
      ∀ e ∈ extra, ∀ a ∈ acc, a.text ≠ e.text := by
  induction ms with
  | nil => exact fun acc => ⟨[], by simp [dedupFold], by simp⟩
  | cons m rest ih =>
    intro acc
    have hstep : dedupFold acc (m :: rest) = dedupFold (dedupAppend acc m) rest := rfl
    by_cases h : ∃ a ∈ acc, a.text = m.text
    · obtain ⟨ex, he, hf⟩ := ih acc
      exact ⟨ex, by rw [hstep, dedupAppend_of_mem h, he], hf⟩
    · obtain ⟨ex, he, hf⟩ := ih (acc ++ [m])
      refine ⟨m :: ex, ?_, ?_⟩
      · rw [hstep, dedupAppend_of_not_mem h, he, List.append_assoc]
        rfl
      · intro e he' a ha
        rcases List.mem_cons.1 he' with rfl | hee
        · exact fun heq => h ⟨a, ha, heq⟩
        · exact hf e hee a (List.mem_append_left _ ha)

/-- The dedup fold preserves pairwise-distinct texts. -/
theorem dedupFold_pairwise (ms : List JMatch) :
    ∀ acc : List JMatch, acc.Pairwise (fun x y => x.text ≠ y.text) →
      (dedupFold acc ms).Pairwise (fun x y => x.text ≠ y.text) := by
  induction ms with
  | nil => exact fun acc h => h
  | cons m rest ih =>
    intro acc hacc
    have hstep : dedupFold acc (m :: rest) = dedupFold (dedupAppend acc m) rest := rfl
    rw [hstep]
    by_cases h : ∃ a ∈ acc, a.text = m.text
    · rw [dedupAppend_of_mem h]; exact ih acc hacc
    · rw [dedupAppend_of_not_mem h]
      refine ih (acc ++ [m]) (List.pairwise_append.2 ⟨hacc, List.pairwise_singleton _ _, ?_⟩)
      intro a ha b hb
      rcases List.mem_singleton.1 hb with rfl
      exact fun heq => h ⟨a, ha, heq⟩

theorem regexPass_nil (fd : String → String → List ReMatch) (text : String)
    (init : List JMatch) : regexPass fd [] text init = init := rfl

theorem regexPass_cons (fd : String → String → List ReMatch) (p : String)
    (ps : List String) (text : String) (init : List JMatch) :
    regexPass fd (p :: ps) text init
      = regexPass fd ps text (dedupFold init ((fd p text).map ReMatch.toJMatch)) := by
  simp [regexPass, dedupFold, List.foldl_map]

/-- The whole regex pass extends the fuzzy seed, and every appended entry
carries a text absent from the seed. -/
theorem regexPass_structure (ps : List String) (fd : String → String → List ReMatch)
    (text : String) :
    ∀ init, ∃ extra, regexPass fd ps text init = init ++ extra ∧
      ∀ e ∈ extra, ∀ a ∈ init, a.text ≠ e.text := by
  induction ps with
  | nil => exact fun init => ⟨[], by simp [regexPass_nil], by simp⟩
  | cons p ps ih =>
    intro init
    obtain ⟨e1, he1, hf1⟩ := dedupFold_structure ((fd p text).map ReMatch.toJMatch) init
    obtain ⟨e2, he2, hf2⟩ := ih (init ++ e1)
    refine ⟨e1 ++ e2, ?_, ?_⟩
    · rw [regexPass_cons, he1, he2, List.append_assoc]
    · intro e he a ha
      rcases List.mem_append.1 he with h1 | h2
      · exact hf1 e h1 a ha
      · exact hf2 e h2 a (List.mem_append_left _ ha)

/-- The regex pass preserves pairwise-distinct texts of the seed. -/
theorem regexPass_pairwise (ps : List String) (fd : String → String → List ReMatch)
    (text : String) :
    ∀ init, init.Pairwise (fun x y => x.text ≠ y.text) →
      (regexPass fd ps text init).Pairwise (fun x y => x.text ≠ y.text) := by
  induction ps with
  | nil => exact fun init h => h
  | cons p ps ih =>
    intro init hinit
    rw [regexPass_cons]
    exact ih _ (dedupFold_pairwise _ _ hinit)

/-- When the seed already holds text `t`, the regex pass neither adds nor
removes entries with that text. -/
theorem regexPass_filter_of_mem (ps : List String) (fd : String → String → List ReMatch)
    (text : String) (init : List JMatch) (t : JVal)
    (hmem : ∃ a ∈ init, a.text = t) :
    (regexPass fd ps text init).filter (fun m => decide (m.text = t))
        = init.filter (fun m => decide (m.text = t)) ∧
      (regexPass fd ps text init).countP (fun m => decide (m.text = t))
        = init.countP (fun m => decide (m.text = t)) := by
  obtain ⟨extra, he, hf⟩ := regexPass_structure ps fd text init
  obtain ⟨a0, ha0, ht0⟩ := hmem
  have hex : ∀ e ∈ extra, ¬(e.text = t) := by
    intro e hee heq
    exact hf e hee a0 ha0 (ht0.trans heq.symm)
  have hfe : List.filter (fun m => decide (m.text = t)) extra = [] :=
    List.filter_eq_nil_iff.2 (by simpa using hex)
  have hce : List.countP (fun m => decide (m.text = t)) extra = 0 :=
    List.countP_eq_zero.2 (by simpa using hex)
  constructor
  · rw [he, List.filter_append, hfe, List.append_nil]
  · rw [he, List.countP_append, hce, Nat.add_zero]

/-- `load_config` sets `target_patterns` exactly when the key exists. -/
theorem load_config_target (r0 : PDFRedactor) (cfg : Config) (env : Env) :
    (r0.load_config cfg env).target_patterns = cfg.target_patterns.getD r0.target_patterns := by
  unfold PDFRedactor.load_config
  cases cfg.folders <;> cases cfg.ai_api <;> cases cfg.target_patterns <;>
    simp <;> split <;> rfl

/-- `load_config` replaces `address_patterns` only by a nonempty legacy
list. -/
theorem load_config_address (r0 : PDFRedactor) (cfg : Config) (env : Env) :
    (r0.load_config cfg env).address_patterns
      = if (buildLegacyList (cfg.legacy_patterns.getD cfg.rootLegacy)).isEmpty
        then r0.address_patterns
        else buildLegacyList (cfg.legacy_patterns.getD cfg.rootLegacy) := by
  unfold PDFRedactor.load_config
  cases cfg.folders <;> cases cfg.ai_api <;> cases cfg.target_patterns <;>
    simp <;> split <;> rfl

/-- Collecting fold used by both redaction loops: the committed regions
are the per-match located rectangles mapped through the region
transformation `g`, in order, and the count is their number. -/
theorem redact_fold_general {β : Type} (g : PRect → β) (sf : JVal → List PRect)
    (addrs : List JMatch) :
    ∀ (acc : List β) (n : Nat),
      addrs.foldl (fun st addr =>
          (sf addr.text).foldl (fun st2 inst => (st2.1 ++ [g inst], st2.2 + 1)) st) (acc, n)
        = (acc ++ addrs.flatMap (fun a => (sf a.text).map g),
           n + (addrs.flatMap (fun a => (sf a.text).map g)).length) := by
  have hinner : ∀ (l : List PRect) (acc : List β) (n : Nat),
      l.foldl (fun st2 inst => (st2.1 ++ [g inst], st2.2 + 1)) (acc, n)
        = (acc ++ l.map g, n + l.length) := by
    intro l
    induction l with
    | nil => intro acc n; simp
    | cons x xs ih =>
      intro acc n
      rw [List.foldl_cons, ih]
      simp [Nat.add_assoc, Nat.add_comm 1]
  induction addrs with
  | nil => intro acc n; simp
  | cons a rest ih =>
    intro acc n
    rw [List.foldl_cons, hinner, ih]
    simp [List.append_assoc, Nat.add_assoc]

/-- Closed form of the `upload_files` batch loop: one record per input in
order, successes and failures mapped structurally, the total summing the
successful counts. -/
theorem upload_files_loop_general (files : List (String × Except String Nat)) :
    ∀ (acc : List ProcEntry) (n : Nat),
      files.foldl (fun st f =>
          match f.2 with
          | Except.ok c => (st.1 ++ [ProcEntry.ok f.1 (replaceAll f.1 ".pdf" "_redacted.pdf") c], st.2 + c)
          | Except.error e => (st.1 ++ [ProcEntry.err f.1 e], st.2)) (acc, n)
        = (acc ++ files.map (fun f =>
             match f.2 with
             | Except.ok c => ProcEntry.ok f.1 (replaceAll f.1 ".pdf" "_redacted.pdf") c
             | Except.error e => ProcEntry.err f.1 e),
           n + (files.filterMap (fun f => f.2.toOption)).sum) := by
  induction files with
  | nil => intro acc n; simp
  | cons f rest ih =>
    intro acc n
    rcases f with ⟨name, ec⟩
    cases ec with
    | ok c =>
      rw [List.foldl_cons]
      simp only []
      rw [ih]
      simp [List.append_assoc, Except.toOption, Nat.add_assoc]
    | error e =>
      rw [List.foldl_cons]
      simp only []
      rw [ih]
      simp [List.append_assoc, Except.toOption]

/-- Counting successes and failures: the two tallies always sum to the
length. -/
theorem countP_not_add {α : Type} (p : α → Bool) (l : List α) :
    l.countP p + l.countP (fun a => !p a) = l.length := by
  induction l with
  | nil => simp
  | cons x xs ih =>
    by_cases h : p x <;> simp [List.countP_cons, h] <;> omega

/-- A backend response repeating one matched text twice, as a concrete
`json.loads` oracle. -/
def cexJsonLoads : String → Option (List JEntry) := fun s =>
  if s = "[[\"a\",0,1],[\"a\",0,1]]" then
    some [JEntry.earr [JVal.atom (JAtom.str "a"), JVal.atom (JAtom.int 0), JVal.atom (JAtom.int 1)],
          JEntry.earr [JVal.atom (JAtom.str "a"), JVal.atom (JAtom.int 0), JVal.atom (JAtom.int 1)]]
  else none

/-- The raw response text matching `cexJsonLoads`. -/
def cexTransport : Option String := some "[[\"a\",0,1],[\"a\",0,1]]"

/-- An enabled matcher with a key. -/
def wMatcher : AIAddressMatcher := ⟨true, "anthropic", some "k", "claude-3-haiku-20240307"⟩

/-- A redactor whose legacy list and target list both hold `"a"`. -/
def cexRedactor : PDFRedactor := ⟨["a"], none, none, ["a"], some wMatcher⟩

/-- C1, counterexample: on page text `"a"` the Fuzzy Detector reports the
text `"a"` (twice, as a backend may) and the Regex Detector also matches
`"a"`, yet the reconciled output holds two entries with that text, not
exactly one: `detect_addresses` never deduplicates among the
fuzzy-contributed entries themselves. -/
theorem claim1_counterexample :
    ((fuzzyPartCLI cexRedactor cexJsonLoads cexTransport "a").countP
        (fun m => decide (m.text = JVal.atom (JAtom.str "a"))) = 2) ∧
    (∃ m ∈ literFinditer "a" "a", m.text = "a") ∧
    ((cexRedactor.detect_addresses literFinditer cexJsonLoads cexTransport "a").countP
        (fun m => decide (m.text = JVal.atom (JAtom.str "a"))) ≠ 1) := by decide

/-- C1 (amended): when the Fuzzy Detector reports a text exactly once and
the Regex Detector also matches that text, the reconciled output holds
exactly one entry with that text and it is the fuzzy-contributed one (the
later identical-text regex hit is suppressed).  The conclusion in fact
needs only the fuzzy count; the regex hypothesis mirrors the claim's
premise. -/
theorem claim1_theorem (r : PDFRedactor) (fd : String → String → List ReMatch)
    (jl : String → Option (List JEntry)) (tr : Option String) (text : String) (t : JVal)
    (hf : (fuzzyPartCLI r jl tr text).countP (fun m => decide (m.text = t)) = 1)
    (_hr : ∃ pat ∈ r.address_patterns, ∃ m ∈ fd pat text, JVal.atom (JAtom.str m.text) = t) :
    (r.detect_addresses fd jl tr text).countP (fun m => decide (m.text = t)) = 1 ∧
    (r.detect_addresses fd jl tr text).filter (fun m => decide (m.text = t))
      = (fuzzyPartCLI r jl tr text).filter (fun m => decide (m.text = t)) := by
  have hmem : ∃ a ∈ fuzzyPartCLI r jl tr text, a.text = t := by
    have hpos : 0 < (fuzzyPartCLI r jl tr text).countP (fun m => decide (m.text = t)) := by
      omega
    simpa using List.countP_pos_iff.1 hpos
  obtain ⟨hfil, hcnt⟩ := regexPass_filter_of_mem r.address_patterns fd text
    (fuzzyPartCLI r jl tr text) t hmem
  exact ⟨by rw [PDFRedactor.detect_addresses, hcnt, hf],
         by rw [PDFRedactor.detect_addresses, hfil]⟩

/-- A single-entry backend response for the witnesses. -/
def wJsonLoads : String → Option (List JEntry) := fun s =>
  if s = "[[\"a\",0,1]]" then
    some [JEntry.earr [JVal.atom (JAtom.str "a"), JVal.atom (JAtom.int 0), JVal.atom (JAtom.int 1)]]
  else none

/-- The raw response text matching `wJsonLoads`. -/
def wTransport : Option String := some "[[\"a\",0,1]]"

/-- C1 witness: concrete run in which the fuzzy detector reports `"a"`
once, the regex pass also matches `"a"`, and the reconciled output keeps
exactly one entry with that text. -/
theorem claim1_witness :
    ((fuzzyPartCLI cexRedactor wJsonLoads wTransport "a").countP
        (fun m => decide (m.text = JVal.atom (JAtom.str "a"))) = 1) ∧
    ((cexRedactor.detect_addresses literFinditer wJsonLoads wTransport "a").countP
        (fun m => decide (m.text = JVal.atom (JAtom.str "a"))) = 1) :=
  ⟨by decide,
   (claim1_theorem cexRedactor literFinditer wJsonLoads wTransport "a"
      (JVal.atom (JAtom.str "a")) (by decide) (by decide)).1⟩

/-- C2, counterexample: with the duplicated fuzzy response of
`cexJsonLoads`, the reconciled list of `detect_addresses` holds two
entries with identical text `"a"`, so its texts are not pairwise
distinct. -/
theorem claim2_counterexample :
    ¬ (cexRedactor.detect_addresses literFinditer cexJsonLoads cexTransport "a").Pairwise
        (fun x y => x.text ≠ y.text) := by decide

/-- C2 (amended): whenever the Fuzzy Detector's own entries carry
pairwise-distinct texts, the reconciled output of `detect_addresses` has
pairwise-distinct texts; the regex pass can never introduce a duplicate,
so duplicates can only originate inside the fuzzy result itself. -/
theorem claim2_theorem (r : PDFRedactor) (fd : String → String → List ReMatch)
    (jl : String → Option (List JEntry)) (tr : Option String) (text : String)
    (h : (fuzzyPartCLI r jl tr text).Pairwise (fun x y => x.text ≠ y.text)) :
    (r.detect_addresses fd jl tr text).Pairwise (fun x y => x.text ≠ y.text) :=
  regexPass_pairwise r.address_patterns fd text _ h

/-- C2 witness: concrete run (single fuzzy entry, regex hit on the same
page) whose reconciled output has pairwise-distinct texts. -/
theorem claim2_witness :
    (cexRedactor.detect_addresses literFinditer wJsonLoads wTransport "a").Pairwise
      (fun x y => x.text ≠ y.text) :=
  claim2_theorem cexRedactor literFinditer wJsonLoads wTransport "a" (by decide)

/-- C3, counterexample: in the web pipeline the resolved target patterns
are fed to the regex loop.  With the Fuzzy Detector absent, page text
`"a"` and target pattern list `["a"]`, `process_pdf_in_memory`'s
detection still returns a regex match for `"a"` — were the Regex
Detector's pattern list independent of the target patterns (which are the
only patterns the web pipeline supplies), it would be empty and the
output `[]`. -/
theorem claim3_counterexample :
    fuzzyPartMem none (fun _ => none) none ["a"] "a" = [] ∧
    process_detect none (fun _ => none) none ["a"] "a"
      = [⟨JVal.atom (JAtom.str "a"), JVal.atom (JAtom.int 0), JVal.atom (JAtom.int 1)⟩] := by
  decide

/-- C3 (amended): in the CLI pipeline the target patterns are consumed
only by the Fuzzy Detector — with the fuzzy branch off, the output of
`detect_addresses` does not depend on `target_patterns` at all — whereas
in the web pipeline the same resolved target patterns feed both the Fuzzy
Detector and, regex-escaped, the regex matching loop (so its output does
depend on them even with the fuzzy branch off). -/
theorem claim3_theorem :
    (∀ (r : PDFRedactor) (fd : String → String → List ReMatch)
       (jl jl' : String → Option (List JEntry)) (tr tr' : Option String)
       (text : String) (tp tp' : List String),
       (∀ m, r.ai_matcher = some m → m.ai_enabled = false) →
       PDFRedactor.detect_addresses { r with target_patterns := tp } fd jl tr text
         = PDFRedactor.detect_addresses { r with target_patterns := tp' } fd jl' tr' text)
    ∧ process_detect none (fun _ => none) none ["a"] "a"
        ≠ process_detect none (fun _ => none) none [] "a" := by
  constructor
  · intro r fd jl jl' tr tr' text tp tp' hoff
    have h1 : ∀ (jl0 : String → Option (List JEntry)) (tr0 : Option String) (tp0 : List String),
        fuzzyPartCLI { r with target_patterns := tp0 } jl0 tr0 text = [] := by
      intro jl0 tr0 tp0
      cases hm : r.ai_matcher with
      | none => simp [fuzzyPartCLI, hm]
      | some m => simp [fuzzyPartCLI, hm, hoff m hm]
    unfold PDFRedactor.detect_addresses
    rw [h1 jl tr tp, h1 jl' tr' tp']
  · decide

/-- C3 witness: with the fuzzy branch off, two CLI runs differing only in
their target patterns produce identical detection output. -/
theorem claim3_witness :
    PDFRedactor.detect_addresses { cexRedactor with ai_matcher := none, target_patterns := ["x"] }
        literFinditer (fun _ => none) none "a"
      = PDFRedactor.detect_addresses { cexRedactor with ai_matcher := none, target_patterns := ["y"] }
        literFinditer (fun _ => none) none "a" :=
  claim3_theorem.1 { cexRedactor with ai_matcher := none } literFinditer
    (fun _ => none) (fun _ => none) none none "a" ["x"] ["y"] (by intro m h; cases h)

/-- The located rectangle and matches used in the geometry
counterexample. -/
def cexRect : PRect := ⟨1/2, 0, 1, 1⟩

/-- A one-match list for the geometry counterexample. -/
def cexAddrs : List JMatch :=
  [⟨JVal.atom (JAtom.str "a"), JVal.atom (JAtom.int 0), JVal.atom (JAtom.int 1)⟩]

/-- C4, counterexample: at 300 DPI the rectangle `(1/2, 0, 1, 1)` is
painted as `(0, -2, 6, 6)` — the code truncates each scaled coordinate
with `int()` before inflating — while the spec's claimed region
`(x*s - 2, ...)` has left edge `1/12` and right edge `37/6`. -/
theorem claim4_counterexample :
    (redact_to_image_page cexAddrs (fun _ => [cexRect]) 300).1 = [⟨0, -2, 6, 6⟩] ∧
    ((rasterRegionSpec 300 cexRect).x0 ≠ ((0 : ℤ) : ℚ)) ∧
    ((rasterRegionSpec 300 cexRect).x1 ≠ ((6 : ℤ) : ℚ)) := by
  refine ⟨?_, by norm_num [rasterRegionSpec, cexRect], by norm_num [rasterRegionSpec, cexRect]⟩
  simp [redact_to_image_page, cexAddrs, cexRect]
  norm_num [pyInt]

/-- C4 (amended): for every located rectangle the Vector strategy commits
`(x0-1, y0-1, x1+1, y1+1)` in page points, and the Raster strategy with
`s = DPI/72` paints `(int(x0*s)-2, int(y0*s)-2, int(x1*s)+2, int(y1*s)+2)`
— each scaled coordinate is truncated toward zero by `int()` before the
two-pixel inflation.  Both counts equal the number of located
rectangles. -/
theorem claim4_theorem (addrs : List JMatch) (sf : JVal → List PRect) (dpi : ℚ) :
    (redact_pdf_page addrs sf).1
      = addrs.flatMap (fun a => (sf a.text).map
          (fun r => (⟨r.x0 - 1, r.y0 - 1, r.x1 + 1, r.y1 + 1⟩ : PRect))) ∧
    (redact_to_image_page addrs sf dpi).1
      = addrs.flatMap (fun a => (sf a.text).map
          (fun r => (⟨pyInt (r.x0 * (dpi / 72)) - 2, pyInt (r.y0 * (dpi / 72)) - 2,
                      pyInt (r.x1 * (dpi / 72)) + 2, pyInt (r.y1 * (dpi / 72)) + 2⟩ : IRect))) ∧
    (redact_pdf_page addrs sf).2
      = (addrs.flatMap (fun a => sf a.text)).length ∧
    (redact_to_image_page addrs sf dpi).2
      = (addrs.flatMap (fun a => sf a.text)).length := by
  have hv := redact_fold_general
    (fun r => (⟨r.x0 - 1, r.y0 - 1, r.x1 + 1, r.y1 + 1⟩ : PRect)) sf addrs [] 0
  have hr := redact_fold_general
    (fun r => (⟨pyInt (r.x0 * (dpi / 72)) - 2, pyInt (r.y0 * (dpi / 72)) - 2,
                pyInt (r.x1 * (dpi / 72)) + 2, pyInt (r.y1 * (dpi / 72)) + 2⟩ : IRect)) sf addrs [] 0
  refine ⟨?_, ?_, ?_, ?_⟩
  · have h1 := congrArg Prod.fst hv
    simpa [redact_pdf_page] using h1
  · have h1 := congrArg Prod.fst hr
    simpa [redact_to_image_page] using h1
  · have h2 := congrArg Prod.snd hv
    simpa [redact_pdf_page, List.length_flatMap, Function.comp_def, List.length_map] using h2
  · have h2 := congrArg Prod.snd hr
    simpa [redact_to_image_page, List.length_flatMap, Function.comp_def, List.length_map] using h2

/-- C5: `PDFRedactor.__init__` fails (raising the configuration error)
exactly when the configuration resolves neither a target pattern nor a
legacy pattern; the constructor involves no document at all — its only
inputs are the parsed configuration and the environment. -/
theorem claim5_theorem (cfg : Option Config) (env : Env) :
    (∃ e, PDFRedactor.init cfg env = Except.error e) ↔
      (∀ c, cfg = some c →
        c.target_patterns.getD [] = []
          ∧ buildLegacyList (c.legacy_patterns.getD c.rootLegacy) = []) := by
  cases cfg with
  | none =>
    constructor
    · intro _ c hc
      cases hc
    · intro _
      exact ⟨"target_patterns or legacy_patterns required", rfl⟩
  | some c =>
    have ht := load_config_target ⟨[], none, none, [], none⟩ c env
    have ha := load_config_address ⟨[], none, none, [], none⟩ c env
    set R := (⟨[], none, none, [], none⟩ : PDFRedactor).load_config c env with hR
    have hinit : PDFRedactor.init (some c) env
        = if R.target_patterns.isEmpty && R.address_patterns.isEmpty
          then Except.error "target_patterns or legacy_patterns required"
          else Except.ok R := rfl
    have hcond : (R.target_patterns.isEmpty && R.address_patterns.isEmpty) = true
        ↔ (c.target_patterns.getD [] = []
            ∧ buildLegacyList (c.legacy_patterns.getD c.rootLegacy) = []) := by
      rw [Bool.and_eq_true, List.isEmpty_iff, List.isEmpty_iff, ht, ha]
      constructor
      · rintro ⟨h1, h2⟩
        refine ⟨h1, ?_⟩
        by_cases hleg : (buildLegacyList (c.legacy_patterns.getD c.rootLegacy)).isEmpty
        · simpa [List.isEmpty_iff] using hleg
        · rw [if_neg hleg] at h2
          exact h2
      · rintro ⟨h1, h2⟩
        refine ⟨h1, ?_⟩
        rw [h2]
        simp
    constructor
    · rintro ⟨e, he⟩ c' hc'
      cases hc'
      rw [hinit] at he
      by_cases hc2 : (R.target_patterns.isEmpty && R.address_patterns.isEmpty) = true
      · exact hcond.1 hc2
      · rw [if_neg (by simpa using hc2)] at he
        cases he
    · intro hall
      rw [hinit, if_pos (by simpa using hcond.2 (hall c rfl))]
      exact ⟨"target_patterns or legacy_patterns required", rfl⟩

/-- C6: a matcher configured with `enabled = true` but no resolvable
(truthy) API key self-disables at construction; the fuzzy branch of
detection then returns nothing regardless of the transport and parser
oracles — it is never invoked — and the detection output equals that of a
run configured with `enabled = false`, oracle for oracle. -/
theorem claim6_theorem (cfg : AIApiCfg) (env : Env)
    (hen : cfg.enabled = some true)
    (hkey : truthyStr (resolveKey cfg env) = false) :
    (AIAddressMatcher.make cfg env).ai_enabled = false ∧
    (∀ (ap : List String) (i o : Option String) (tp : List String)
       (jl : String → Option (List JEntry)) (tr : Option String) (text : String),
       fuzzyPartCLI ⟨ap, i, o, tp, some (AIAddressMatcher.make cfg env)⟩ jl tr text = []) ∧
    (∀ (ap : List String) (i o : Option String) (tp : List String)
       (fd : String → String → List ReMatch)
       (jl jl' : String → Option (List JEntry)) (tr tr' : Option String) (text : String),
       PDFRedactor.detect_addresses ⟨ap, i, o, tp, some (AIAddressMatcher.make cfg env)⟩ fd jl tr text
         = PDFRedactor.detect_addresses
             ⟨ap, i, o, tp, some (AIAddressMatcher.make { cfg with enabled := some false } env)⟩
             fd jl' tr' text) := by
  have h1 : (AIAddressMatcher.make cfg env).ai_enabled = false := by
    simp [AIAddressMatcher.make, hen, hkey]
  have h2 : (AIAddressMatcher.make { cfg with enabled := some false } env).ai_enabled = false := by
    simp [AIAddressMatcher.make]
  refine ⟨h1, ?_, ?_⟩
  · intro ap i o tp jl tr text
    simp [fuzzyPartCLI, h1]
  · intro ap i o tp fd jl jl' tr tr' text
    unfold PDFRedactor.detect_addresses
    have hf1 : fuzzyPartCLI ⟨ap, i, o, tp, some (AIAddressMatcher.make cfg env)⟩ jl tr text = [] := by
      simp [fuzzyPartCLI, h1]
    have hf2 : fuzzyPartCLI ⟨ap, i, o, tp, some (AIAddressMatcher.make { cfg with enabled := some false } env)⟩ jl' tr' text = [] := by
      simp [fuzzyPartCLI, h2]
    rw [hf1, hf2]

/-- C6 witness: an enabled configuration with no key at all self-disables
and detects exactly as the disabled configuration does. -/
theorem claim6_witness :
    (AIAddressMatcher.make ⟨some true, none, none, none⟩ ⟨none, none⟩).ai_enabled = false ∧
    PDFRedactor.detect_addresses
        ⟨["a"], none, none, ["a"], some (AIAddressMatcher.make ⟨some true, none, none, none⟩ ⟨none, none⟩)⟩
        literFinditer (fun _ => none) none "a"
      = PDFRedactor.detect_addresses
          ⟨["a"], none, none, ["a"], some (AIAddressMatcher.make ⟨some false, none, none, none⟩ ⟨none, none⟩)⟩
          literFinditer wJsonLoads wTransport "a" :=
  ⟨(claim6_theorem ⟨some true, none, none, none⟩ ⟨none, none⟩ rfl (by decide)).1,
   (claim6_theorem ⟨some true, none, none, none⟩ ⟨none, none⟩ rfl (by decide)).2.2
     ["a"] none none ["a"] literFinditer (fun _ => none) wJsonLoads none wTransport "a"⟩

/-- C7, counterexample: a response whose top-level array holds one
well-formed triple and one malformed (too short) entry does not degrade
to zero matches — the malformed entry alone is skipped and the
well-formed one is still returned. -/
def cexShortJsonLoads : String → Option (List JEntry) := fun s =>
  if s = "[[\"a\",0,1],[\"b\"]]" then
    some [JEntry.earr [JVal.atom (JAtom.str "a"), JVal.atom (JAtom.int 0), JVal.atom (JAtom.int 1)],
          JEntry.earr [JVal.atom (JAtom.str "b")]]
  else none

/-- C7, counterexample (see `cexShortJsonLoads`): contrary to the claim,
a malformed entry does not yield zero matches for the page. -/
theorem claim7_counterexample :
    wMatcher.find_similar_patterns cexShortJsonLoads (some "[[\"a\",0,1],[\"b\"]]") "page" ["x"]
        = [⟨JVal.atom (JAtom.str "a"), JVal.atom (JAtom.int 0), JVal.atom (JAtom.int 1)⟩] ∧
    wMatcher.find_similar_patterns cexShortJsonLoads (some "[[\"a\",0,1],[\"b\"]]") "page" ["x"] ≠ [] := by
  decide

/-- C7 (amended): `find_similar_patterns` is total (never raises): a
transport error, a response without a bracketed array window, and a JSON
parse failure each degrade to zero matches for the page; a malformed
entry (length below 3) is skipped individually, leaving the remaining
entries' matches intact. -/
theorem claim7_theorem (m : AIAddressMatcher) (jl : String → Option (List JEntry))
    (text : String) (tps : List String) :
    (m.find_similar_patterns jl none text tps = []) ∧
    (∀ resp, parseWindow resp = none → m.find_similar_patterns jl (some resp) text tps = []) ∧
    (∀ resp w, parseWindow resp = some w → jl w = none →
       m.find_similar_patterns jl (some resp) text tps = []) ∧
    (∀ e rest l, pyLenEntry e = some l → l < 3 →
       processEntries (e :: rest) = processEntries rest) := by
  refine ⟨?_, ?_, ?_, ?_⟩
  · unfold AIAddressMatcher.find_similar_patterns
    split <;> rfl
  · intro resp hw
    unfold AIAddressMatcher.find_similar_patterns
    split
    · rfl
    · simp [hw]
  · intro resp w hw hjl
    unfold AIAddressMatcher.find_similar_patterns
    split
    · rfl
    · simp [hw, hjl]
  · intro e rest l hlen hlt
    unfold processEntries
    simp [hlen, Nat.not_le.2 hlt]
    exact processEntries.eq_def rest

/-- C7 witness: the degradation cases at concrete inputs — a transport
error, a bracketless response, a parse failure, and a short entry that is
skipped. -/
theorem claim7_witness :
    (wMatcher.find_similar_patterns (fun _ => none) none "t" ["p"] = []) ∧
    (wMatcher.find_similar_patterns (fun _ => none) (some "no array here") "t" ["p"] = []) ∧
    (wMatcher.find_similar_patterns (fun _ => none) (some "[1]") "t" ["p"] = []) ∧
    (processEntries [JEntry.earr [JVal.atom (JAtom.str "b")]] = processEntries []) :=
  ⟨(claim7_theorem wMatcher (fun _ => none) "t" ["p"]).1,
   (claim7_theorem wMatcher (fun _ => none) "t" ["p"]).2.1 "no array here" (by decide),
   (claim7_theorem wMatcher (fun _ => none) "t" ["p"]).2.2.1 "[1]" "[1]" (by decide) rfl,
   (claim7_theorem wMatcher (fun _ => none) "t" ["p"]).2.2.2
     (JEntry.earr [JVal.atom (JAtom.str "b")]) [] 1 rfl (by omega)⟩

/-- C8: the batch loop of `upload_files` never aborts: it emits exactly
one record per input document in order — a success record for each
succeeding document, an error marker for each failing one — so K failures
among N documents leave N-K successes, K error markers, and a total equal
to the sum of the successful counts. -/
theorem claim8_theorem (files : List (String × Except String Nat)) :
    (upload_files_loop files).1
      = files.map (fun f =>
          match f.2 with
          | Except.ok c => ProcEntry.ok f.1 (replaceAll f.1 ".pdf" "_redacted.pdf") c
          | Except.error e => ProcEntry.err f.1 e) ∧
    (upload_files_loop files).1.length = files.length ∧
    (upload_files_loop files).1.countP (fun e => !e.isOk)
      = files.countP (fun f => !fileOutcomeOk f) ∧
    (upload_files_loop files).1.countP (fun e => e.isOk)
      = files.length - files.countP (fun f => !fileOutcomeOk f) ∧
    (upload_files_loop files).2 = (files.filterMap (fun f => f.2.toOption)).sum := by
  have hmap : (upload_files_loop files).1
      = files.map (fun f =>
          match f.2 with
          | Except.ok c => ProcEntry.ok f.1 (replaceAll f.1 ".pdf" "_redacted.pdf") c
          | Except.error e => ProcEntry.err f.1 e) := by
    have h := upload_files_loop_general files [] 0
    have h1 := congrArg Prod.fst h
    simpa [upload_files_loop] using h1
  have hcO : ∀ p : ProcEntry → Bool,
      (upload_files_loop files).1.countP p
        = files.countP (fun f => p (match f.2 with
            | Except.ok c => ProcEntry.ok f.1 (replaceAll f.1 ".pdf" "_redacted.pdf") c
            | Except.error e => ProcEntry.err f.1 e)) := by
    intro p
    rw [hmap, List.countP_map]
    rfl
  have herr : (upload_files_loop files).1.countP (fun e => !e.isOk)
      = files.countP (fun f => !fileOutcomeOk f) := by
    rw [hcO]
    apply List.countP_congr
    intro f _
    rcases f with ⟨nm, ec⟩
    cases ec <;> rfl
  have hok : (upload_files_loop files).1.countP (fun e => e.isOk)
      = files.countP (fun f => fileOutcomeOk f) := by
    rw [hcO]
    apply List.countP_congr
    intro f _
    rcases f with ⟨nm, ec⟩
    cases ec <;> rfl
  refine ⟨hmap, by rw [hmap, List.length_map], herr, ?_, ?_⟩
  · rw [hok]
    have := countP_not_add (fun f => fileOutcomeOk f) files
    omega
  · have h := upload_files_loop_general files [] 0
    have h2 := congrArg Prod.snd h
    simpa [upload_files_loop] using h2

/-- C9: with an empty target pattern list, `find_similar_patterns`
returns the empty list — even for an enabled matcher holding a key — and
its value does not depend on the transport or parser oracles, so no
backend call can influence (or be required for) the result. -/
theorem claim9_theorem (m : AIAddressMatcher) (jl jl' : String → Option (List JEntry))
    (tr tr' : Option String) (text text' : String) :
    m.find_similar_patterns jl tr text [] = [] ∧
    m.find_similar_patterns jl tr text [] = m.find_similar_patterns jl' tr' text' [] := by
  constructor <;> simp [AIAddressMatcher.find_similar_patterns]

/-- C10, counterexample: posting the empty (falsy) session id — an id
certainly absent from the store — is rejected with a 400 error instead of
succeeding, so cleanup is not total over all session identifiers. -/
theorem claim10_counterexample :
    (cleanup (some "") ([("s", 1)] : List (String × Nat))).1 ≠ CleanupResult.ok ∧
    ([("s", (1 : Nat))].any (fun p => decide (p.1 = "")) = false) := by
  decide

/-- C10 (amended): for every nonempty session id the cleanup operation
succeeds whether or not the id is present, afterwards the store holds no
entry under that id, and running cleanup twice equals running it once. -/
theorem claim10_theorem {α : Type} (s : String) (st : List (String × α)) (h : s ≠ "") :
    (cleanup (some s) st).1 = CleanupResult.ok ∧
    (∀ p ∈ (cleanup (some s) st).2, p.1 ≠ s) ∧
    cleanup (some s) (cleanup (some s) st).2 = cleanup (some s) st := by
  by_cases hm : st.any (fun p => decide (p.1 = s))
  · have hres : cleanup (some s) st = (CleanupResult.ok, st.filter (fun p => !decide (p.1 = s))) := by
      simp [cleanup, h, hm]
    have hnot : ∀ p ∈ st.filter (fun p => !decide (p.1 = s)), p.1 ≠ s := by
      intro p hp
      have := (List.mem_filter.1 hp).2
      simpa using this
    refine ⟨by rw [hres], by rw [hres]; exact hnot, ?_⟩
    have hany2 : (st.filter (fun p => !decide (p.1 = s))).any (fun p => decide (p.1 = s)) = false := by
      rw [List.any_eq_false]
      intro p hp
      simpa using hnot p hp
    rw [hres]
    simp [cleanup, h, hany2]
  · have hany : (st.any (fun p => decide (p.1 = s))) = false := by
      cases hb : st.any (fun p => decide (p.1 = s)) with
      | false => rfl
      | true => exact absurd hb hm
    have hres : cleanup (some s) st = (CleanupResult.ok, st) := by
      simp [cleanup, h, hany]
    have hnot : ∀ p ∈ st, p.1 ≠ s := by
      intro p hp heq
      exact hm (List.any_eq_true.2 ⟨p, hp, by simpa using heq⟩)
    refine ⟨by rw [hres], by rw [hres]; exact hnot, by rw [hres]; exact hres⟩

/-- C10 witness: a present id is cleaned up successfully and a second
cleanup is a no-op on the already-cleaned store. -/
theorem claim10_witness :
    (cleanup (some "sid") ([("sid", 1)] : List (String × Nat))).1 = CleanupResult.ok ∧
    cleanup (some "sid") (cleanup (some "sid") ([("sid", (1 : Nat))])).2
      = cleanup (some "sid") [("sid", 1)] := by
  have h := claim10_theorem "sid" ([("sid", (1 : Nat))]) (by decide)
  exact ⟨h.1, h.2.2⟩
